import Mathlib

/-!
Verification development for the StudyBuilder frontend snippets:
`src/api/controlledTerminology.js` (the Resource Client) and
`src/stores/studies-general.js` (the Session State Store).

The JavaScript code is embedded shallowly:

* JSON values are the inductive `Json` (JavaScript numbers are modelled as
  integers; the study objects handled by the store carry integral version
  numbers only).  The in-memory result of a JavaScript property access is an
  `Option Json`: `none` models `undefined`, `some .null` models `null`.
* `JSON.stringify` is `render` (no-indent form, with the standard string
  escaping rules) and `JSON.parse` is `parseJson`; both are executable and
  `parse_render` proves the round trip used by the local-storage claims.
* `localStorage` is an association list of string keys to string values.
* store actions are state-transition functions: they take the previous store
  state (plus the outcome of every awaited HTTP call, which is an
  out-of-scope collaborator) and return the new state, the list of Resource
  Client calls that were issued, and the action's own outcome (`Except`
  models an uncaught JavaScript exception / rejected promise).
-/

/-- A JSON value (JavaScript numbers restricted to integers). -/
inductive Json where
  | null
  | bool (b : Bool)
  | num (n : Int)
  | str (s : String)
  | arr (elems : List Json)
  | obj (fields : List (String × Json))

/-- Decimal digit character, `48 + n` for `n < 10`. -/
def digitChar (n : Nat) : Char := Char.ofNat (48 + n)

/-- Lower-case hexadecimal digit character. -/
def hexChar (n : Nat) : Char := if n < 10 then Char.ofNat (48 + n) else Char.ofNat (87 + n)

/-- Decimal rendering of a natural number, most significant digit first. -/
def renderNat (n : Nat) : List Char :=
  if h : n < 10 then [digitChar n] else renderNat (n / 10) ++ [digitChar (n % 10)]
  decreasing_by exact Nat.div_lt_self (by omega) (by omega)

/-- Decimal rendering of an integer (as `JSON.stringify` renders integral numbers). -/
def renderInt (n : Int) : List Char :=
  if n < 0 then '-' :: renderNat (-n).toNat else renderNat n.toNat

/-- The escape sequence `JSON.stringify` produces for one string character. -/
def escapeChar (c : Char) : List Char :=
  if c = '"' then ['\\', '"']
  else if c = '\\' then ['\\', '\\']
  else if c = '\x08' then ['\\', 'b']
  else if c = '\x09' then ['\\', 't']
  else if c = '\x0a' then ['\\', 'n']
  else if c = '\x0c' then ['\\', 'f']
  else if c = '\x0d' then ['\\', 'r']
  else if c.toNat < 32 then ['\\', 'u', '0', '0', hexChar (c.toNat / 16), hexChar (c.toNat % 16)]
  else [c]

/-- `JSON.stringify` escaping of a string body. -/
def escapeStr : List Char → List Char
  | [] => []
  | c :: cs => escapeChar c ++ escapeStr cs

mutual

/-- The character stream `JSON.stringify` produces for a value (compact form). -/
def renderL : Json → List Char
  | .num n => renderInt n
  | .null => "null".data
  | .bool true => "true".data
  | .bool false => "false".data
  | .str s => '"' :: (escapeStr s.data ++ ['"'])
  | .arr [] => ['[', ']']
  | .arr (x :: xs) => '[' :: (renderL x ++ renderTailE xs ++ [']'])
  | .obj [] => ['\x7b', '\x7d']
  | .obj (f :: fs) => '\x7b' :: (renderField f ++ renderTailF fs ++ ['\x7d'])

/-- One `"key":value` member. -/
def renderField : String × Json → List Char
  | (k, v) => '"' :: (escapeStr k.data ++ ('"' :: ':' :: renderL v))

/-- `,value` continuations of a non-empty array. -/
def renderTailE : List Json → List Char
  | [] => []
  | x :: xs => ',' :: renderL x ++ renderTailE xs

/-- `,"key":value` continuations of a non-empty object. -/
def renderTailF : List (String × Json) → List Char
  | [] => []
  | f :: fs => ',' :: renderField f ++ renderTailF fs

end

/-- `JSON.stringify` on a value. -/
def render (j : Json) : String := String.mk (renderL j)

/-- Numeric value of one decimal digit character. -/
def digitVal (c : Char) : Nat := c.toNat - 48

/-- Value of a digit string, most significant digit first. -/
def digitsToNat (ds : List Char) : Nat := ds.foldl (fun acc c => acc * 10 + digitVal c) 0

/-- Numeric value of one hexadecimal digit character, if any. -/
def hexVal (c : Char) : Option Nat :=
  if 48 ≤ c.toNat ∧ c.toNat ≤ 57 then some (c.toNat - 48)
  else if 97 ≤ c.toNat ∧ c.toNat ≤ 102 then some (c.toNat - 87)
  else if 65 ≤ c.toNat ∧ c.toNat ≤ 70 then some (c.toNat - 55)
  else none

/-- JSON string-body parser: consumes characters up to the closing quote,
undoing the escape sequences accepted by `JSON.parse`. -/
def parseStrL : List Char → Option (List Char × List Char)
  | [] => none
  | '"' :: rest => some ([], rest)
  | '\\' :: e :: rest =>
    match e with
    | '"' => (parseStrL rest).map fun p => ('"' :: p.1, p.2)
    | '\\' => (parseStrL rest).map fun p => ('\\' :: p.1, p.2)
    | '/' => (parseStrL rest).map fun p => ('/' :: p.1, p.2)
    | 'b' => (parseStrL rest).map fun p => ('\x08' :: p.1, p.2)
    | 't' => (parseStrL rest).map fun p => ('\x09' :: p.1, p.2)
    | 'n' => (parseStrL rest).map fun p => ('\x0a' :: p.1, p.2)
    | 'f' => (parseStrL rest).map fun p => ('\x0c' :: p.1, p.2)
    | 'r' => (parseStrL rest).map fun p => ('\x0d' :: p.1, p.2)
    | 'u' =>
      match rest with
      | h1 :: h2 :: h3 :: h4 :: rest' =>
        match hexVal h1, hexVal h2, hexVal h3, hexVal h4 with
        | some a, some b, some c, some d =>
          (parseStrL rest').map fun p =>
            (Char.ofNat (((a * 16 + b) * 16 + c) * 16 + d) :: p.1, p.2)
        | _, _, _, _ => none
      | _ => none
    | _ => none
  | c :: rest => (parseStrL rest).map fun p => (c :: p.1, p.2)

/-- Matches a fixed literal continuation, returning the remaining input. -/
def expects : List Char → List Char → Option (List Char)
  | [], input => some input
  | e :: es, c :: cs => if c = e then expects es cs else none
  | _ :: _, [] => none

/-- Parses the digits of a negative number (after the minus sign). -/
def parseNumNeg : List Char → Option (Json × List Char)
  | d :: rest =>
    if d.isDigit then
      some (.num (-(digitsToNat (List.span Char.isDigit (d :: rest)).1 : Int)),
        (List.span Char.isDigit (d :: rest)).2)
    else none
  | [] => none

mutual

/-- Fuel-indexed JSON value parser (the grammar accepted by `JSON.parse`,
restricted to compact input and integral numbers). -/
def parseVal : Nat → List Char → Option (Json × List Char)
  | 0, _ => none
  | _ + 1, [] => none
  | f + 1, c :: cs =>
    if c.isDigit then
      some (.num (digitsToNat (List.span Char.isDigit (c :: cs)).1),
        (List.span Char.isDigit (c :: cs)).2)
    else if c = 'n' then (expects ['u', 'l', 'l'] cs).map fun r => (.null, r)
    else if c = 't' then (expects ['r', 'u', 'e'] cs).map fun r => (.bool true, r)
    else if c = 'f' then (expects ['a', 'l', 's', 'e'] cs).map fun r => (.bool false, r)
    else if c = '-' then parseNumNeg cs
    else if c = '"' then (parseStrL cs).map fun p => (.str (String.mk p.1), p.2)
    else if c = '[' then
      if cs.head? = some ']' then some (.arr [], cs.tail)
      else
        (parseVal f cs).bind fun p =>
          (parseArrTail f p.2).map fun q => (.arr (p.1 :: q.1), q.2)
    else if c = '\x7b' then
      if cs.head? = some '\x7d' then some (.obj [], cs.tail)
      else if cs.head? = some '"' then
        (parseStrL cs.tail).bind fun kp =>
          if kp.2.head? = some ':' then
            (parseVal f kp.2.tail).bind fun vp =>
              (parseObjTail f vp.2).map fun fp =>
                (.obj ((String.mk kp.1, vp.1) :: fp.1), fp.2)
          else none
      else none
    else none

/-- Parses `,value ... ]` continuations of an array. -/
def parseArrTail : Nat → List Char → Option (List Json × List Char)
  | 0, _ => none
  | f + 1, input =>
    if input.head? = some ']' then some ([], input.tail)
    else if input.head? = some ',' then
      (parseVal f input.tail).bind fun p =>
        (parseArrTail f p.2).map fun q => (p.1 :: q.1, q.2)
    else none

/-- Parses `,"key":value ... }` continuations of an object. -/
def parseObjTail : Nat → List Char → Option (List (String × Json) × List Char)
  | 0, _ => none
  | f + 1, input =>
    if input.head? = some '\x7d' then some ([], input.tail)
    else if input.head? = some ',' then
      if input.tail.head? = some '"' then
        (parseStrL input.tail.tail).bind fun kp =>
          if kp.2.head? = some ':' then
            (parseVal f kp.2.tail).bind fun vp =>
              (parseObjTail f vp.2).map fun fp => ((String.mk kp.1, vp.1) :: fp.1, fp.2)
          else none
      else none
    else none

end

/-- `JSON.parse`: parse the whole string as one JSON value. -/
def parseJson (s : String) : Option Json :=
  match parseVal (s.data.length + 1) s.data with
  | some (j, []) => some j
  | _ => none


/-! ## JavaScript runtime model: property access, errors, local storage -/

/-- An uncaught JavaScript exception (or rejected promise). -/
inductive JsError where
  | typeError
  | syntaxError
  | httpError (status : Int)
  deriving DecidableEq

/-- Result of the JavaScript property access `v.k`, where `none` models
`undefined`: accessing a property of `undefined` or `null` throws a
`TypeError`; on an object it yields the property's value (`undefined` when the
key is absent); on any other primitive it yields `undefined`. -/
def jsField : Option Json → String → Except JsError (Option Json)
  | none, _ => .error .typeError
  | some .null, _ => .error .typeError
  | some (.obj fs), k => .ok (fs.lookup k)
  | some _, _ => .ok none

/-- `v !== undefined && v !== null` for a property-access result. -/
def jsDefined : Option Json → Bool
  | none => false
  | some .null => false
  | some _ => true

/-- `localStorage`: string keys mapped to string values. -/
abbrev Storage : Type := List (String × String)

/-- `localStorage.getItem` (`none` models the `null` returned for a missing key). -/
def getItem (g : Storage) (k : String) : Option String := List.lookup k g

/-- `localStorage.removeItem`. -/
def removeItem (g : Storage) (k : String) : Storage :=
  List.filter (fun p => p.1 ≠ k) g

/-- `localStorage.setItem`. -/
def setItem (g : Storage) (k v : String) : Storage := (k, v) :: removeItem g k

/-! ## Resource Client: `src/api/controlledTerminology.js`

Each operation builds exactly one HTTP request out of its arguments and
returns the transport's response for it unmodified (in the source every
operation body is a single `return repository.<verb>(...)`).  The embedding
represents an operation by the `Request` it hands to the HTTP client
(`repository`); query parameters and bodies are `Json` values. -/

inductive Method where
  | get
  | post
  | patch
  | delete
  deriving DecidableEq

/-- The request handed to the `repository` HTTP client: verb, url, the
`{ params }` config object (if any) and the request body (if any). -/
structure Request where
  method : Method
  url : String
  params : Option Json := none
  body : Option Json := none

mutual

/-- The atomic values appearing in a `Json` tree (object keys are structure,
not values, and are not collected). -/
def leaves : Json → List Json
  | .obj fs => leavesF fs
  | .arr xs => leavesL xs
  | v => [v]

def leavesF : List (String × Json) → List Json
  | [] => []
  | (_, v) :: rest => leaves v ++ leavesF rest

def leavesL : List Json → List Json
  | [] => []
  | v :: rest => leaves v ++ leavesL rest

end

/-- The atomic values an operation hands to the HTTP client (in its query
parameters and body together). -/
def reqLeaves (r : Request) : List Json :=
  (match r.params with
   | some p => leaves p
   | none => []) ++
  (match r.body with
   | some b => leaves b
   | none => [])

/-- Pure pass-through: the values handed to the HTTP client are exactly the
caller-supplied values (`args`), none dropped, transformed, or invented —
the client may only arrange them under fixed parameter names. -/
def PassThroughAt (args : List Json) (r : Request) : Prop :=
  (reqLeaves r).Perm (leavesL args)

/-- JavaScript property assignment `obj[k] = v` on an object literal (keeps
the key's position when present, appends otherwise), as performed by
`{...options}` followed by an assignment, or by `{...options, k: v}`. -/
def setKey : List (String × Json) → String → Json → List (String × Json)
  | [], k, v => [(k, v)]
  | (k0, v0) :: rest, k, v =>
    if k0 = k then (k, v) :: rest else (k0, v0) :: setKey rest k v

namespace ControlledTerminology

/-- `const resource = 'ct'` -/
def resource : String := "ct"

def getCatalogues : Request :=
  { method := .get, url := resource ++ "/catalogues" }

def getPackages (params : Json) : Request :=
  { method := .get, url := resource ++ "/packages", params := some params }

def getSponsorPackages : Request :=
  { method := .get, url := resource ++ "/packages",
    params := some (.obj [("catalogue", .str "SDTM CT"), ("sponsor_only", .bool true)]) }

def getPackagesDates (catalogueName : Json) : Request :=
  { method := .get, url := resource ++ "/packages/dates",
    params := some (.obj [("catalogue_name", catalogueName)]) }

def getPackagesChanges (catalogueName fromDate toDate : Json) : Request :=
  { method := .get, url := resource ++ "/packages/changes",
    params := some (.obj [("catalogue_name", catalogueName),
      ("old_package_date", fromDate), ("new_package_date", toDate)]) }

def getPackagesCodelistChanges (codelistUid : String)
    (catalogueName fromDate toDate : Json) : Request :=
  { method := .get, url := resource ++ "/packages/" ++ codelistUid ++ "/changes",
    params := some (.obj [("catalogue_name", catalogueName),
      ("old_package_date", fromDate), ("new_package_date", toDate)]) }

def createSponsorPackage (data : Json) : Request :=
  { method := .post, url := resource ++ "/packages/sponsor", body := some data }

/-- `getCodelists` spreads the caller's options and rewrites a `page_size`
of `-1` to `1000` before handing them over. -/
def getCodelists (options : List (String × Json)) : Request :=
  { method := .get, url := resource ++ "/codelists",
    params := some (.obj
      (match List.lookup "page_size" options with
       | some (.num n) => if n = -1 then setKey options "page_size" (.num 1000) else options
       | _ => options)) }

def getCodelistNames (codelistUid : String) : Request :=
  { method := .get, url := resource ++ "/codelists/" ++ codelistUid ++ "/names" }

def getCodelistNamesVersions (codelistUid : String) : Request :=
  { method := .get, url := resource ++ "/codelists/" ++ codelistUid ++ "/names/versions" }

def updateCodelistNames (codelistUid : String) (data : Json) : Request :=
  { method := .patch, url := resource ++ "/codelists/" ++ codelistUid ++ "/names",
    body := some data }

def newCodelistNamesVersion (codelistUid : String) : Request :=
  { method := .post, url := resource ++ "/codelists/" ++ codelistUid ++ "/names/versions" }

def approveCodelistNames (codelistUid : String) : Request :=
  { method := .post, url := resource ++ "/codelists/" ++ codelistUid ++ "/names/approvals" }

def getCodelistAttributes (codelistUid : String) : Request :=
  { method := .get, url := resource ++ "/codelists/" ++ codelistUid ++ "/attributes" }

def getCodelistAttributesVersions (codelistUid : String) : Request :=
  { method := .get, url := resource ++ "/codelists/" ++ codelistUid ++ "/attributes/versions" }

def newCodelistAttributesVersion (codelistUid : String) : Request :=
  { method := .post, url := resource ++ "/codelists/" ++ codelistUid ++ "/attributes/versions" }

def approveCodelistAttributes (codelistUid : String) : Request :=
  { method := .post, url := resource ++ "/codelists/" ++ codelistUid ++ "/attributes/approvals" }

def getCodelistTerms (params : Json) : Request :=
  { method := .get, url := resource ++ "/terms", params := some params }

def getCodelistTermsNames (params : Json) : Request :=
  { method := .get, url := resource ++ "/terms/names", params := some params }

def getCodelistTermNames (termUid : String) : Request :=
  { method := .get, url := resource ++ "/terms/" ++ termUid ++ "/names" }

def getCodelistTermNamesVersions (termUid : String) : Request :=
  { method := .get, url := resource ++ "/terms/" ++ termUid ++ "/names/versions" }

def newCodelistTermNamesVersion (termUid : String) : Request :=
  { method := .post, url := resource ++ "/terms/" ++ termUid ++ "/names/versions" }

def approveCodelistTermNames (termUid : String) : Request :=
  { method := .post, url := resource ++ "/terms/" ++ termUid ++ "/names/approvals" }

def inactivateCodelistTermNames (termUid : String) : Request :=
  { method := .delete, url := resource ++ "/terms/" ++ termUid ++ "/names/activations" }

def reactivateCodelistTermNames (termUid : String) : Request :=
  { method := .post, url := resource ++ "/terms/" ++ termUid ++ "/names/activations" }

def deleteCodelistTermNames (termUid : String) : Request :=
  { method := .delete, url := resource ++ "/terms/" ++ termUid ++ "/names" }

/-- `getCodelistTermsAttributes` spreads the caller's options and adds the
caller's codelist uid under the fixed key `codelist_uid`. -/
def getCodelistTermsAttributes (codelistUid : String)
    (options : List (String × Json)) : Request :=
  { method := .get, url := resource ++ "/terms/attributes",
    params := some (.obj (setKey options "codelist_uid" (.str codelistUid))) }

def getCodelistTermAttributes (termUid : String) : Request :=
  { method := .get, url := resource ++ "/terms/" ++ termUid ++ "/attributes" }

def getCodelistTermAttributesVersions (termUid : String) : Request :=
  { method := .get, url := resource ++ "/terms/" ++ termUid ++ "/attributes/versions" }

def newCodelistTermAttributesVersion (termUid : String) : Request :=
  { method := .post, url := resource ++ "/terms/" ++ termUid ++ "/attributes/versions" }

def approveCodelistTermAttributes (termUid : String) : Request :=
  { method := .post, url := resource ++ "/terms/" ++ termUid ++ "/attributes/approvals" }

def inactivateCodelistTermAttributes (termUid : String) : Request :=
  { method := .delete, url := resource ++ "/terms/" ++ termUid ++ "/attributes/activations" }

def reactivateCodelistTermAttributes (termUid : String) : Request :=
  { method := .post, url := resource ++ "/terms/" ++ termUid ++ "/attributes/activations" }

def deleteCodelistTermAttributes (termUid : String) : Request :=
  { method := .delete, url := resource ++ "/terms/" ++ termUid ++ "/attributes" }

def createCodelistTerm (data : Json) : Request :=
  { method := .post, url := resource ++ "/terms", body := some data }

/-- `addTermToCodelist` builds the body itself: the caller's term uid plus
the fixed order sentinel `999999`. -/
def addTermToCodelist (codelistUid termUid : String) : Request :=
  { method := .post, url := resource ++ "/codelists/" ++ codelistUid ++ "/terms",
    body := some (.obj [("term_uid", .str termUid), ("order", .num 999999)]) }

def removeTermFromCodelist (codelistUid termUid : String) : Request :=
  { method := .delete,
    url := resource ++ "/codelists/" ++ codelistUid ++ "/terms/" ++ termUid }

def updateCodelistTermOrder (termUid : String) (data : Json) : Request :=
  { method := .patch, url := resource ++ "/terms/" ++ termUid ++ "/order",
    body := some data }

def updateCodelistTermNames (termUid : String) (data : Json) : Request :=
  { method := .patch, url := resource ++ "/terms/" ++ termUid ++ "/names",
    body := some data }

def updateCodelistTermAttributes (termUid : String) (data : Json) : Request :=
  { method := .patch, url := resource ++ "/terms/" ++ termUid ++ "/attributes",
    body := some data }

def updateCodelistAttributes (codelistUid : String) (data : Json) : Request :=
  { method := .patch, url := resource ++ "/codelists/" ++ codelistUid ++ "/attributes",
    body := some data }

def createCodelist (data : Json) : Request :=
  { method := .post, url := resource ++ "/codelists", body := some data }

def getStats : Request :=
  { method := .get, url := resource ++ "/stats" }

end ControlledTerminology

/-! ## Session State Store: `src/stores/studies-general.js` -/

/-- A controlled-terminology term as held in the `objectiveLevels` /
`endpointLevels` / `endpointSubLevels` collections: it carries the numeric
`order` field the sorted getters compare on (the rest of the term object is
abstracted by `name`). -/
structure CTTerm where
  order : Int
  name : String
  deriving DecidableEq, Repr

/-- Modelled from the spec: a call to one of the Resource Client collaborator
modules (`units`, `terms`, `dictionaries`, `study`, whose sources are not part
of this snippet set); the spec describes each as a pass-through issuing one
HTTP request, so a call is identified by the operation and its arguments. -/
inductive ClientCall where
  | unitsGetBySubset (subset : String)
  | unitsGet (options : Json)
  | termsGetNamesByCodelist (codelist : String)
  | termsGetByCodelist (codelist : String)
  | dictionariesGetCodelists (name : String)
  | dictionariesGetTerms (codelistUid : Option Json) (pageSize : Int) (sortBy : String)
  | studyGetStudy (uid : Option Json) (ignoreCache : Bool)
  | studyGetStudyPreferredTimeUnit (uid : Option Json)
  | studyGetSoAPreferredTimeUnit (uid : Option Json)
  | studyGetSoAPreferences (uid : Option Json)

/-- The `data` member of an HTTP response envelope (`resp.data.items`). -/
structure ApiData (α : Type) where
  items : List α

/-- An HTTP response envelope as the collaborator modules resolve it. -/
structure ApiResponse (α : Type) where
  data : ApiData α

/-- The store state declared by `state: () => ({...})`; scalar fields start
as `null` (`some .null`), collections as `[]`. -/
structure StoreState where
  selectedStudy : Option Json
  selectedStudyVersion : Option Json
  studyPreferredTimeUnit : Option Json
  soaPreferredTimeUnit : Option Json
  soaPreferences : Option Json
  studyTypes : List Json
  trialIntentTypes : List Json
  trialTypes : List Json
  trialPhases : List Json
  interventionTypes : List Json
  snomedTerms : List Json
  sexOfParticipants : List Json
  trialBlindingSchemas : List Json
  controlTypes : List Json
  interventionModels : List Json
  units : List Json
  nullValues : List Json
  objectiveLevels : List CTTerm
  endpointLevels : List CTTerm
  endpointSubLevels : List CTTerm
  allUnits : List Json

/-- The initial store state. -/
def initialState : StoreState where
  selectedStudy := none
  selectedStudyVersion := some .null
  studyPreferredTimeUnit := some .null
  soaPreferredTimeUnit := some .null
  soaPreferences := some .null
  studyTypes := []
  trialIntentTypes := []
  trialTypes := []
  trialPhases := []
  interventionTypes := []
  snomedTerms := []
  sexOfParticipants := []
  trialBlindingSchemas := []
  controlTypes := []
  interventionModels := []
  units := []
  nullValues := []
  objectiveLevels := []
  endpointLevels := []
  endpointSubLevels := []
  allUnits := []

/-- `Array.prototype.sort` with the comparator `(a, b) => a.order - b.order`:
a stable in-place sort putting smaller `order` first (ECMAScript sort is
stable, and any two stable sorts by the same total preorder agree, so
insertion sort realises it). -/
def jsSortByOrder (l : List CTTerm) : List CTTerm :=
  List.insertionSort (fun a b => a.order ≤ b.order) l

instance : IsTotal CTTerm (fun a b => a.order ≤ b.order) := ⟨fun _ _ => Int.le_total _ _⟩

instance : IsTrans CTTerm (fun a b => a.order ≤ b.order) := ⟨fun _ _ _ => Int.le_trans⟩

/-- Getter `sortedObjectiveLevels`: `state.objectiveLevels.sort(...)` sorts the
array in place and returns the same (now sorted) array, so the access yields
both the returned list and the store state after the access. -/
def sortedObjectiveLevels (s : StoreState) : List CTTerm × StoreState :=
  let sorted := jsSortByOrder s.objectiveLevels
  (sorted, { s with objectiveLevels := sorted })

/-- Getter `sortedEndpointLevels` (same in-place sort on `endpointLevels`). -/
def sortedEndpointLevels (s : StoreState) : List CTTerm × StoreState :=
  let sorted := jsSortByOrder s.endpointLevels
  (sorted, { s with endpointLevels := sorted })

/-- Getter `studyId`: reads
`state.selectedStudy.current_metadata.identification_metadata.study_number`
(throwing a `TypeError` when the chain hits `null`/`undefined`) and returns
`study_id` when the study number is neither `undefined` nor `null`, and
`study_acronym` otherwise.  The source re-reads the whole chain for the result
field; the re-read is a pure repetition and yields the same
`identification_metadata` object, read once here. -/
def studyId (s : StoreState) : Except JsError (Option Json) := do
  let cm ← jsField s.selectedStudy "current_metadata"
  let im ← jsField cm "identification_metadata"
  let studyNumber ← jsField im "study_number"
  if jsDefined studyNumber then jsField im "study_id" else jsField im "study_acronym"

/-- Action `unselectStudy()`: clears the in-memory selection and removes the
persisted copy. -/
def unselectStudy (s : StoreState) (g : Storage) : StoreState × Storage :=
  ({ s with selectedStudy := none }, removeItem g "selectedStudy")

/-- What `selectStudy` produces when it completes without throwing. -/
structure SelectOutcome where
  state : StoreState
  storage : Storage
  reloaded : Bool
  calls : List ClientCall

/-- Action `selectStudy(studyObj, forceReload)`: stores the selection in
memory, reads `studyObj.current_metadata.version_metadata.version_number`
into `selectedStudyVersion`, persists `JSON.stringify(studyObj)` under the
`selectedStudy` key, reloads the page when `forceReload` is set, and fires the
three preference fetches for `studyObj.uid` (their `.then` callbacks populate
the preference fields only when those later responses resolve, which the
claims here do not touch).  A `TypeError` thrown by the metadata access
propagates; nothing is persisted in that case (the access happens before
`localStorage.setItem` in the source). -/
def selectStudy (s : StoreState) (g : Storage) (studyObj : Json)
    (forceReload : Bool) : Except JsError SelectOutcome := do
  let cm ← jsField (some studyObj) "current_metadata"
  let vm ← jsField cm "version_metadata"
  let vn ← jsField vm "version_number"
  let uid ← jsField (some studyObj) "uid"
  pure
    { state := { s with selectedStudy := some studyObj, selectedStudyVersion := vn }
      storage := setItem g "selectedStudy" (render studyObj)
      reloaded := forceReload
      calls := [.studyGetStudyPreferredTimeUnit uid, .studyGetSoAPreferredTimeUnit uid,
        .studyGetSoAPreferences uid] }

/-- What `initialize` produces when it completes without throwing. -/
structure InitOutcome where
  state : StoreState
  storage : Storage
  calls : List ClientCall

/-- Action `initialize()` (named `initializeStore` here): reads the persisted
`selectedStudy` value; when present (and not the empty string, which is
falsy), parses it (`SyntaxError` propagates — only the revalidation fetch is
inside the `try`), re-selects the parsed study optimistically, then awaits
`study.getStudy(parsedStudy.uid, true)` (outcome supplied as `revalidate`);
any revalidation failure is caught and answered by `unselectStudy()`. -/
def initializeStore (s : StoreState) (g : Storage)
    (revalidate : Except JsError Json) : Except JsError InitOutcome :=
  match getItem g "selectedStudy" with
  | none => .ok ⟨s, g, []⟩
  | some stored =>
    if stored = "" then .ok ⟨s, g, []⟩
    else
      match parseJson stored with
      | none => .error .syntaxError
      | some parsed =>
        match selectStudy s g parsed false with
        | .error e => .error e
        | .ok sel =>
          match jsField (some parsed) "uid" with
          | .error e => .error e
          | .ok uid =>
            match revalidate with
            | .ok _ => .ok ⟨sel.state, sel.storage, sel.calls ++ [.studyGetStudy uid true]⟩
            | .error _ =>
              let u := unselectStudy sel.state sel.storage
              .ok ⟨u.1, u.2, sel.calls ++ [.studyGetStudy uid true]⟩

/-- State, issued Resource Client calls, and own outcome of a store action
(`.error` models an exception/rejection the action does not catch). -/
structure ActionResult where
  state : StoreState
  calls : List ClientCall
  outcome : Except JsError Unit

/-- Action `fetchUnits()`: one call to `units.getBySubset('Study Time')`;
on success `this.units = resp.data.items`. -/
def fetchUnits (s : StoreState) (result : Except JsError (ApiResponse Json)) : ActionResult :=
  match result with
  | .ok resp => ⟨{ s with units := resp.data.items }, [.unitsGetBySubset "Study Time"], .ok ()⟩
  | .error e => ⟨s, [.unitsGetBySubset "Study Time"], .error e⟩

/-- Action `fetchAllUnits()`: one call to `units.get({ params: { page_size: 0 } })`. -/
def fetchAllUnits (s : StoreState) (result : Except JsError (ApiResponse Json)) : ActionResult :=
  match result with
  | .ok resp => ⟨{ s with allUnits := resp.data.items },
      [.unitsGet (.obj [("params", .obj [("page_size", .num 0)])])], .ok ()⟩
  | .error e => ⟨s, [.unitsGet (.obj [("params", .obj [("page_size", .num 0)])])], .error e⟩

/-- Action `fetchStudyTypes()`. -/
def fetchStudyTypes (s : StoreState) (result : Except JsError (ApiResponse Json)) : ActionResult :=
  match result with
  | .ok resp => ⟨{ s with studyTypes := resp.data.items },
      [.termsGetNamesByCodelist "studyType"], .ok ()⟩
  | .error e => ⟨s, [.termsGetNamesByCodelist "studyType"], .error e⟩

/-- Action `fetchTrialIntentTypes()`. -/
def fetchTrialIntentTypes (s : StoreState)
    (result : Except JsError (ApiResponse Json)) : ActionResult :=
  match result with
  | .ok resp => ⟨{ s with trialIntentTypes := resp.data.items },
      [.termsGetNamesByCodelist "trialIntentType"], .ok ()⟩
  | .error e => ⟨s, [.termsGetNamesByCodelist "trialIntentType"], .error e⟩

/-- Action `fetchTrialTypes()`. -/
def fetchTrialTypes (s : StoreState) (result : Except JsError (ApiResponse Json)) : ActionResult :=
  match result with
  | .ok resp => ⟨{ s with trialTypes := resp.data.items },
      [.termsGetNamesByCodelist "trialType"], .ok ()⟩
  | .error e => ⟨s, [.termsGetNamesByCodelist "trialType"], .error e⟩

/-- Action `fetchTrialPhases()`. -/
def fetchTrialPhases (s : StoreState) (result : Except JsError (ApiResponse Json)) : ActionResult :=
  match result with
  | .ok resp => ⟨{ s with trialPhases := resp.data.items },
      [.termsGetNamesByCodelist "trialPhase"], .ok ()⟩
  | .error e => ⟨s, [.termsGetNamesByCodelist "trialPhase"], .error e⟩

/-- Action `fetchInterventionTypes()`. -/
def fetchInterventionTypes (s : StoreState)
    (result : Except JsError (ApiResponse Json)) : ActionResult :=
  match result with
  | .ok resp => ⟨{ s with interventionTypes := resp.data.items },
      [.termsGetNamesByCodelist "interventionTypes"], .ok ()⟩
  | .error e => ⟨s, [.termsGetNamesByCodelist "interventionTypes"], .error e⟩

/-- Action `fetchSnomedTerms()`: a two-step dependent fetch; the second
request is only issued when the first succeeds and its `items[0].codelist_uid`
access does not throw (an empty `items` makes `items[0]` `undefined`, so the
access throws a `TypeError`). -/
def fetchSnomedTerms (s : StoreState) (resp1 : Except JsError (ApiResponse Json))
    (resp2 : Except JsError (ApiResponse Json)) : ActionResult :=
  match resp1 with
  | .error e => ⟨s, [.dictionariesGetCodelists "SNOMED"], .error e⟩
  | .ok r1 =>
    match r1.data.items with
    | [] => ⟨s, [.dictionariesGetCodelists "SNOMED"], .error .typeError⟩
    | first :: _ =>
      match jsField (some first) "codelist_uid" with
      | .error e => ⟨s, [.dictionariesGetCodelists "SNOMED"], .error e⟩
      | .ok cu =>
        let second := ClientCall.dictionariesGetTerms cu 0 (render (.obj [("name", .bool true)]))
        match resp2 with
        | .error e => ⟨s, [.dictionariesGetCodelists "SNOMED", second], .error e⟩
        | .ok r2 => ⟨{ s with snomedTerms := r2.data.items },
            [.dictionariesGetCodelists "SNOMED", second], .ok ()⟩

/-- Action `fetchSexOfParticipants()`. -/
def fetchSexOfParticipants (s : StoreState)
    (result : Except JsError (ApiResponse Json)) : ActionResult :=
  match result with
  | .ok resp => ⟨{ s with sexOfParticipants := resp.data.items },
      [.termsGetNamesByCodelist "sexOfParticipants"], .ok ()⟩
  | .error e => ⟨s, [.termsGetNamesByCodelist "sexOfParticipants"], .error e⟩

/-- Action `fetchTrialBlindingSchemas()`. -/
def fetchTrialBlindingSchemas (s : StoreState)
    (result : Except JsError (ApiResponse Json)) : ActionResult :=
  match result with
  | .ok resp => ⟨{ s with trialBlindingSchemas := resp.data.items },
      [.termsGetNamesByCodelist "trialBlindingSchema"], .ok ()⟩
  | .error e => ⟨s, [.termsGetNamesByCodelist "trialBlindingSchema"], .error e⟩

/-- Action `fetchControlTypes()`. -/
def fetchControlTypes (s : StoreState)
    (result : Except JsError (ApiResponse Json)) : ActionResult :=
  match result with
  | .ok resp => ⟨{ s with controlTypes := resp.data.items },
      [.termsGetNamesByCodelist "controlType"], .ok ()⟩
  | .error e => ⟨s, [.termsGetNamesByCodelist "controlType"], .error e⟩

/-- Action `fetchInterventionModels()`. -/
def fetchInterventionModels (s : StoreState)
    (result : Except JsError (ApiResponse Json)) : ActionResult :=
  match result with
  | .ok resp => ⟨{ s with interventionModels := resp.data.items },
      [.termsGetNamesByCodelist "interventionModel"], .ok ()⟩
  | .error e => ⟨s, [.termsGetNamesByCodelist "interventionModel"], .error e⟩

/-- Action `fetchNullValues()` (the one fetch using `terms.getByCodelist`). -/
def fetchNullValues (s : StoreState) (result : Except JsError (ApiResponse Json)) : ActionResult :=
  match result with
  | .ok resp => ⟨{ s with nullValues := resp.data.items },
      [.termsGetByCodelist "nullValues"], .ok ()⟩
  | .error e => ⟨s, [.termsGetByCodelist "nullValues"], .error e⟩

/-- Action `fetchObjectiveLevels()`. -/
def fetchObjectiveLevels (s : StoreState)
    (result : Except JsError (ApiResponse CTTerm)) : ActionResult :=
  match result with
  | .ok resp => ⟨{ s with objectiveLevels := resp.data.items },
      [.termsGetNamesByCodelist "objectiveLevels"], .ok ()⟩
  | .error e => ⟨s, [.termsGetNamesByCodelist "objectiveLevels"], .error e⟩

/-- Action `fetchEndpointLevels()`. -/
def fetchEndpointLevels (s : StoreState)
    (result : Except JsError (ApiResponse CTTerm)) : ActionResult :=
  match result with
  | .ok resp => ⟨{ s with endpointLevels := resp.data.items },
      [.termsGetNamesByCodelist "endpointLevels"], .ok ()⟩
  | .error e => ⟨s, [.termsGetNamesByCodelist "endpointLevels"], .error e⟩

/-- Action `fetchEndpointSubLevels()`. -/
def fetchEndpointSubLevels (s : StoreState)
    (result : Except JsError (ApiResponse CTTerm)) : ActionResult :=
  match result with
  | .ok resp => ⟨{ s with endpointSubLevels := resp.data.items },
      [.termsGetNamesByCodelist "endpointSubLevels"], .ok ()⟩
  | .error e => ⟨s, [.termsGetNamesByCodelist "endpointSubLevels"], .error e⟩


theorem digitChar_isDigit {n : Nat} (h : n < 10) : (digitChar n).isDigit = true := by
  interval_cases n <;> decide

theorem digitVal_digitChar {n : Nat} (h : n < 10) : digitVal (digitChar n) = n := by
  interval_cases n <;> decide

theorem renderNat_ne_nil (n : Nat) : renderNat n ≠ [] := by
  rw [renderNat]
  split <;> simp

theorem renderNat_digits (n : Nat) : ∀ c ∈ renderNat n, c.isDigit = true := by
  induction n using renderNat.induct with
  | case1 n h =>
    rw [renderNat, dif_pos h]
    simpa using digitChar_isDigit h
  | case2 n h ih =>
    rw [renderNat, dif_neg h]
    simp only [List.mem_append, List.mem_singleton]
    rintro c (hc | rfl)
    · exact ih c hc
    · exact digitChar_isDigit (Nat.mod_lt _ (by omega))

theorem digitsToNat_append_last (l : List Char) (c : Char) :
    digitsToNat (l ++ [c]) = digitsToNat l * 10 + digitVal c := by
  simp [digitsToNat, List.foldl_append]

theorem digitsToNat_renderNat (n : Nat) : digitsToNat (renderNat n) = n := by
  induction n using renderNat.induct with
  | case1 n h =>
    rw [renderNat, dif_pos h]
    simpa [digitsToNat] using digitVal_digitChar h
  | case2 n h ih =>
    rw [renderNat, dif_neg h]
    rw [digitsToNat_append_last, ih, digitVal_digitChar (Nat.mod_lt _ (by omega))]
    omega

/-- `true` when the following characters cannot extend a decimal literal. -/
def goodRest : List Char → Bool
  | [] => true
  | c :: _ => !c.isDigit

theorem span_loop_digits (l : List Char) : ∀ (r acc : List Char),
    (∀ c ∈ l, c.isDigit = true) → goodRest r = true →
    List.span.loop Char.isDigit (l ++ r) acc = (acc.reverse ++ l, r) := by
  induction l with
  | nil =>
    intro r acc _ hr
    cases r with
    | nil => simp [List.span.loop]
    | cons c cs =>
      simp only [goodRest, Bool.not_eq_true'] at hr
      simp [List.span.loop, hr]
  | cons c cs ih =>
    intro r acc hl hr
    have hc := hl c (by simp)
    rw [List.cons_append, List.span.loop, hc]
    rw [ih r (c :: acc) (fun x hx => hl x (by simp [hx])) hr]
    simp

theorem span_digits (l r : List Char) (hl : ∀ c ∈ l, c.isDigit = true)
    (hr : goodRest r = true) : List.span Char.isDigit (l ++ r) = (l, r) := by
  simpa [List.span] using span_loop_digits l r [] hl hr

theorem hexVal_hexChar {n : Nat} (h : n < 16) : hexVal (hexChar n) = some n := by
  interval_cases n <;> decide

theorem parseStrL_escape (s : List Char) : ∀ rest : List Char,
    parseStrL (escapeStr s ++ '"' :: rest) = some (s, rest) := by
  induction s with
  | nil => intro rest; rfl
  | cons c cs ih =>
    intro rest
    rw [escapeStr, List.append_assoc]
    by_cases h1 : c = '"'
    · subst h1
      rw [show escapeChar '"' = ['\\', '"'] from rfl]
      simp [parseStrL, ih]
    by_cases h2 : c = '\\'
    · subst h2
      rw [show escapeChar '\\' = ['\\', '\\'] from rfl]
      simp [parseStrL, ih]
    by_cases h3 : c = '\x08'
    · subst h3
      rw [show escapeChar '\x08' = ['\\', 'b'] from rfl]
      simp [parseStrL, ih]
    by_cases h4 : c = '\x09'
    · subst h4
      rw [show escapeChar '\x09' = ['\\', 't'] from rfl]
      simp [parseStrL, ih]
    by_cases h5 : c = '\x0a'
    · subst h5
      rw [show escapeChar '\x0a' = ['\\', 'n'] from rfl]
      simp [parseStrL, ih]
    by_cases h6 : c = '\x0c'
    · subst h6
      rw [show escapeChar '\x0c' = ['\\', 'f'] from rfl]
      simp [parseStrL, ih]
    by_cases h7 : c = '\x0d'
    · subst h7
      rw [show escapeChar '\x0d' = ['\\', 'r'] from rfl]
      simp [parseStrL, ih]
    by_cases h8 : c.toNat < 32
    · rw [show escapeChar c = ['\\', 'u', '0', '0', hexChar (c.toNat / 16), hexChar (c.toNat % 16)] by
        rw [escapeChar, if_neg h1, if_neg h2, if_neg h3, if_neg h4, if_neg h5, if_neg h6,
          if_neg h7, if_pos h8]]
      have hd : hexVal (hexChar (c.toNat / 16)) = some (c.toNat / 16) :=
        hexVal_hexChar (by omega)
      have hm : hexVal (hexChar (c.toNat % 16)) = some (c.toNat % 16) :=
        hexVal_hexChar (Nat.mod_lt _ (by omega))
      simp only [List.cons_append, parseStrL, List.nil_append,
        show hexVal '0' = some 0 from rfl, hd, hm, ih, Option.map]
      have harith : ((0 * 16 + 0) * 16 + c.toNat / 16) * 16 + c.toNat % 16 = c.toNat := by omega
      rw [harith, Char.ofNat_toNat]
      rw [show ([] : List Char).append (escapeStr cs ++ '"' :: rest) =
        escapeStr cs ++ '"' :: rest from rfl, ih]
    · rw [show escapeChar c = [c] by
        rw [escapeChar, if_neg h1, if_neg h2, if_neg h3, if_neg h4, if_neg h5, if_neg h6,
          if_neg h7, if_neg h8]]
      rw [List.cons_append, List.nil_append, parseStrL, ih]
      · rfl
      · exact fun h => h1 h
      · exact fun _ _ h _ => h2 h

theorem renderNat_cons (n : Nat) : ∃ c cs, renderNat n = c :: cs ∧ c.isDigit = true := by
  cases hrn : renderNat n with
  | nil => exact absurd hrn (renderNat_ne_nil _)
  | cons c cs =>
    exact ⟨c, cs, rfl, renderNat_digits n c (by rw [hrn]; simp)⟩

theorem renderL_head (j : Json) : ∃ c cs, renderL j = c :: cs ∧ c ≠ ']' := by
  cases j with
  | null => exact ⟨'n', _, rfl, by decide⟩
  | bool b =>
    cases b with
    | false => exact ⟨'f', _, rfl, by decide⟩
    | true => exact ⟨'t', _, rfl, by decide⟩
  | num n =>
    rw [show renderL (.num n) = renderInt n from rfl, renderInt]
    by_cases h : n < 0
    · rw [if_pos h]; exact ⟨'-', _, rfl, by decide⟩
    · rw [if_neg h]
      obtain ⟨c, cs, hc, hd⟩ := renderNat_cons n.toNat
      refine ⟨c, cs, hc, fun h' => ?_⟩
      subst h'
      exact absurd hd (by decide)
  | str s => exact ⟨'"', _, rfl, by decide⟩
  | arr es =>
    cases es with
    | nil => exact ⟨'[', _, rfl, by decide⟩
    | cons x xs => exact ⟨'[', _, rfl, by decide⟩
  | obj fs =>
    cases fs with
    | nil => exact ⟨'\x7b', _, rfl, by decide⟩
    | cons f fs => exact ⟨'\x7b', _, rfl, by decide⟩

theorem goodRest_tailE (xs : List Json) (r : List Char) :
    goodRest (renderTailE xs ++ ']' :: r) = true := by
  cases xs <;> rfl

theorem goodRest_tailF (fs : List (String × Json)) (r : List Char) :
    goodRest (renderTailF fs ++ '\x7d' :: r) = true := by
  cases fs <;> rfl

mutual

theorem parseVal_render : ∀ (j : Json) (f : Nat) (rest : List Char),
    (renderL j).length + rest.length + 1 ≤ f → goodRest rest = true →
    parseVal f (renderL j ++ rest) = some (j, rest)
  | .null, f, rest => by
    intro hf hr
    cases f with
    | zero => omega
    | succ f =>
      show parseVal (f + 1) ('n' :: 'u' :: 'l' :: 'l' :: rest) = some (.null, rest)
      rw [parseVal, if_neg (by decide), if_pos rfl]
      simp [expects]
  | .bool true, f, rest => by
    intro hf hr
    cases f with
    | zero => omega
    | succ f =>
      show parseVal (f + 1) ('t' :: 'r' :: 'u' :: 'e' :: rest) = some (.bool true, rest)
      rw [parseVal, if_neg (by decide), if_neg (by decide), if_pos rfl]
      simp [expects]
  | .bool false, f, rest => by
    intro hf hr
    cases f with
    | zero => omega
    | succ f =>
      show parseVal (f + 1) ('f' :: 'a' :: 'l' :: 's' :: 'e' :: rest) = some (.bool false, rest)
      rw [parseVal, if_neg (by decide), if_neg (by decide), if_neg (by decide), if_pos rfl]
      simp [expects]
  | .num n, f, rest => by
    intro hf hr
    cases f with
    | zero => omega
    | succ f =>
      rw [show renderL (.num n) = renderInt n from rfl, renderInt]
      by_cases hneg : n < 0
      · rw [if_pos hneg]
        obtain ⟨c, cs, hc, hcd⟩ := renderNat_cons (-n).toNat
        rw [List.cons_append, parseVal, if_neg (by decide), if_neg (by decide),
          if_neg (by decide), if_neg (by decide), if_pos rfl]
        rw [hc, List.cons_append, parseNumNeg, if_pos hcd]
        have hspan := span_digits (c :: cs) rest (by rw [← hc]; exact renderNat_digits _) hr
        rw [List.cons_append] at hspan
        rw [hspan, ← hc, digitsToNat_renderNat]
        have hn : -(((-n).toNat : Nat) : Int) = n := by omega
        rw [hn]
      · rw [if_neg hneg]
        obtain ⟨c, cs, hc, hcd⟩ := renderNat_cons n.toNat
        rw [hc, List.cons_append, parseVal, if_pos hcd]
        have hspan := span_digits (c :: cs) rest (by rw [← hc]; exact renderNat_digits _) hr
        rw [List.cons_append] at hspan
        rw [hspan, ← hc, digitsToNat_renderNat]
        have hn : ((n.toNat : Nat) : Int) = n := by omega
        rw [hn]
  | .str s, f, rest => by
    intro hf hr
    cases f with
    | zero => omega
    | succ f =>
      rw [show renderL (.str s) = '"' :: (escapeStr s.data ++ ['"']) from rfl, List.cons_append,
        List.append_assoc, List.singleton_append]
      rw [parseVal, if_neg (by decide), if_neg (by decide), if_neg (by decide),
        if_neg (by decide), if_neg (by decide), if_pos rfl]
      rw [parseStrL_escape]
      rfl
  | .arr [], f, rest => by
    intro hf hr
    cases f with
    | zero => omega
    | succ f =>
      show parseVal (f + 1) ('[' :: ']' :: rest) = some (.arr [], rest)
      rw [parseVal, if_neg (by decide), if_neg (by decide), if_neg (by decide),
        if_neg (by decide), if_neg (by decide), if_neg (by decide), if_pos rfl]
      rw [if_pos (by rfl)]
      rfl
  | .arr (x :: xs), f, rest => by
    intro hf hr
    cases f with
    | zero => omega
    | succ f =>
      have hlen : (renderL (.arr (x :: xs))).length =
          (renderL x).length + (renderTailE xs).length + 2 := by
        rw [show renderL (.arr (x :: xs)) = '[' :: (renderL x ++ renderTailE xs ++ [']']) from rfl]
        simp only [List.length_cons, List.length_append, List.length_nil]
      rw [show renderL (.arr (x :: xs)) = '[' :: (renderL x ++ renderTailE xs ++ [']']) from rfl,
        List.cons_append]
      have hshape : (renderL x ++ renderTailE xs ++ [']']) ++ rest =
          renderL x ++ (renderTailE xs ++ ']' :: rest) := by
        simp [List.append_assoc]
      rw [hshape]
      obtain ⟨c0, cs0, hc0, hne⟩ := renderL_head x
      have hx1 : (renderL x).length = cs0.length + 1 := by rw [hc0]; simp
      rw [parseVal, if_neg (by decide), if_neg (by decide), if_neg (by decide),
        if_neg (by decide), if_neg (by decide), if_neg (by decide), if_pos rfl]
      rw [hc0, List.cons_append]
      rw [if_neg (by simp only [List.head?_cons, Option.some.injEq]; exact hne)]
      rw [← List.cons_append, ← hc0]
      rw [parseVal_render x f (renderTailE xs ++ ']' :: rest)
        (by simp only [List.length_append, List.length_cons]; omega) (goodRest_tailE xs rest)]
      rw [Option.some_bind]
      rw [parseArrTail_render xs f rest (by omega)]
      rfl
  | .obj [], f, rest => by
    intro hf hr
    cases f with
    | zero => omega
    | succ f =>
      show parseVal (f + 1) ('\x7b' :: '\x7d' :: rest) = some (.obj [], rest)
      rw [parseVal, if_neg (by decide), if_neg (by decide), if_neg (by decide),
        if_neg (by decide), if_neg (by decide), if_neg (by decide), if_neg (by decide),
        if_pos rfl]
      rw [if_pos (by rfl)]
      rfl
  | .obj ((k, v) :: fs), f, rest => by
    intro hf hr
    cases f with
    | zero => omega
    | succ f =>
      have hlen : (renderL (.obj ((k, v) :: fs))).length =
          (renderField (k, v)).length + (renderTailF fs).length + 2 := by
        rw [show renderL (.obj ((k, v) :: fs)) =
          '\x7b' :: (renderField (k, v) ++ renderTailF fs ++ ['\x7d']) from rfl]
        simp only [List.length_cons, List.length_append, List.length_nil]
      have hflen : (renderField (k, v)).length =
          (escapeStr k.data).length + (renderL v).length + 3 := by
        rw [show renderField (k, v) =
          '"' :: (escapeStr k.data ++ ('"' :: ':' :: renderL v)) from rfl]
        simp only [List.length_cons, List.length_append, List.length_nil]
        omega
      rw [show renderL (.obj ((k, v) :: fs)) =
        '\x7b' :: (renderField (k, v) ++ renderTailF fs ++ ['\x7d']) from rfl,
        List.cons_append]
      have hshape : (renderField (k, v) ++ renderTailF fs ++ ['\x7d']) ++ rest =
          '"' :: (escapeStr k.data ++
            ('"' :: (':' :: (renderL v ++ (renderTailF fs ++ '\x7d' :: rest))))) := by
        rw [show renderField (k, v) =
          '"' :: (escapeStr k.data ++ ('"' :: ':' :: renderL v)) from rfl]
        simp [List.append_assoc]
      rw [hshape]
      rw [parseVal, if_neg (by decide), if_neg (by decide), if_neg (by decide),
        if_neg (by decide), if_neg (by decide), if_neg (by decide), if_neg (by decide),
        if_pos rfl]
      rw [if_neg (by simp only [List.head?_cons, Option.some.injEq]; decide)]
      rw [if_pos (by rfl), List.tail_cons]
      rw [parseStrL_escape]
      rw [Option.some_bind]
      rw [if_pos (by rfl), List.tail_cons]
      rw [parseVal_render v f (renderTailF fs ++ '\x7d' :: rest)
        (by simp only [List.length_append, List.length_cons]; omega) (goodRest_tailF fs rest)]
      rw [Option.some_bind]
      rw [parseObjTail_render fs f rest (by omega)]
      rfl

theorem parseArrTail_render : ∀ (xs : List Json) (f : Nat) (rest : List Char),
    (renderTailE xs).length + rest.length + 2 ≤ f →
    parseArrTail f (renderTailE xs ++ ']' :: rest) = some (xs, rest)
  | [], f, rest => by
    intro hf
    cases f with
    | zero => omega
    | succ f =>
      show parseArrTail (f + 1) (']' :: rest) = some ([], rest)
      rw [parseArrTail, if_pos (by rfl)]
      rfl
  | y :: ys, f, rest => by
    intro hf
    cases f with
    | zero => omega
    | succ f =>
      have hlen : (renderTailE (y :: ys)).length =
          (renderL y).length + (renderTailE ys).length + 1 := by
        rw [show renderTailE (y :: ys) = ',' :: renderL y ++ renderTailE ys from rfl]
        simp only [List.length_cons, List.length_append, List.length_nil]
        omega
      obtain ⟨c0, cs0, hc0, _⟩ := renderL_head y
      have hy1 : (renderL y).length = cs0.length + 1 := by rw [hc0]; simp
      rw [show renderTailE (y :: ys) = ',' :: renderL y ++ renderTailE ys from rfl,
        List.cons_append, List.cons_append]
      rw [show (renderL y ++ renderTailE ys) ++ ']' :: rest =
        renderL y ++ (renderTailE ys ++ ']' :: rest) from List.append_assoc _ _ _]
      rw [parseArrTail]
      rw [if_neg (by simp only [List.head?_cons, Option.some.injEq]; decide)]
      rw [if_pos (by rfl), List.tail_cons]
      rw [parseVal_render y f (renderTailE ys ++ ']' :: rest)
        (by simp only [List.length_append, List.length_cons]; omega) (goodRest_tailE ys rest)]
      rw [Option.some_bind]
      rw [parseArrTail_render ys f rest (by omega)]
      rfl

theorem parseObjTail_render : ∀ (fs : List (String × Json)) (f : Nat) (rest : List Char),
    (renderTailF fs).length + rest.length + 2 ≤ f →
    parseObjTail f (renderTailF fs ++ '\x7d' :: rest) = some (fs, rest)
  | [], f, rest => by
    intro hf
    cases f with
    | zero => omega
    | succ f =>
      show parseObjTail (f + 1) ('\x7d' :: rest) = some ([], rest)
      rw [parseObjTail, if_pos (by rfl)]
      rfl
  | (k, v) :: fs, f, rest => by
    intro hf
    cases f with
    | zero => omega
    | succ f =>
      have hlen : (renderTailF ((k, v) :: fs)).length =
          (renderField (k, v)).length + (renderTailF fs).length + 1 := by
        rw [show renderTailF ((k, v) :: fs) = ',' :: renderField (k, v) ++ renderTailF fs from rfl]
        simp only [List.length_cons, List.length_append, List.length_nil]
        omega
      have hflen : (renderField (k, v)).length =
          (escapeStr k.data).length + (renderL v).length + 3 := by
        rw [show renderField (k, v) =
          '"' :: (escapeStr k.data ++ ('"' :: ':' :: renderL v)) from rfl]
        simp only [List.length_cons, List.length_append, List.length_nil]
        omega
      rw [show renderTailF ((k, v) :: fs) = ',' :: renderField (k, v) ++ renderTailF fs from rfl,
        List.cons_append, List.cons_append]
      rw [show (renderField (k, v) ++ renderTailF fs) ++ '\x7d' :: rest =
        renderField (k, v) ++ (renderTailF fs ++ '\x7d' :: rest) from List.append_assoc _ _ _]
      have hshape : renderField (k, v) ++ (renderTailF fs ++ '\x7d' :: rest) =
          '"' :: (escapeStr k.data ++
            ('"' :: (':' :: (renderL v ++ (renderTailF fs ++ '\x7d' :: rest))))) := by
        rw [show renderField (k, v) =
          '"' :: (escapeStr k.data ++ ('"' :: ':' :: renderL v)) from rfl]
        simp [List.append_assoc]
      rw [hshape]
      rw [parseObjTail]
      rw [if_neg (by simp only [List.head?_cons, Option.some.injEq]; decide)]
      rw [if_pos (by rfl), List.tail_cons, List.head?_cons]
      rw [if_pos (by decide), List.tail_cons]
      rw [parseStrL_escape]
      rw [Option.some_bind]
      rw [if_pos (by rfl), List.tail_cons]
      rw [parseVal_render v f (renderTailF fs ++ '\x7d' :: rest)
        (by simp only [List.length_append, List.length_cons]; omega) (goodRest_tailF fs rest)]
      rw [Option.some_bind]
      rw [parseObjTail_render fs f rest (by omega)]
      rfl

end

/-- The printer-parser round trip: `JSON.parse (JSON.stringify v)` recovers `v`. -/
theorem parse_render (j : Json) : parseJson (render j) = some j := by
  have h := parseVal_render j ((renderL j).length + 1) [] (by simp) rfl
  rw [List.append_nil] at h
  rw [parseJson]
  rw [show (render j).data = renderL j from rfl]
  rw [h]

/-! ## Storage and client support lemmas -/

theorem getItem_setItem_self (g : Storage) (k v : String) :
    getItem (setItem g k v) k = some v := by
  simp [getItem, setItem, List.lookup]

theorem getItem_removeItem_self (g : Storage) (k : String) :
    getItem (removeItem g k) k = none := by
  induction g with
  | nil => rfl
  | cons p rest ih =>
    by_cases h : p.1 = k
    · simpa [getItem, removeItem, List.filter_cons, h] using ih
    · simpa [getItem, removeItem, List.filter_cons, h, List.lookup,
        show (k == p.1) = false by simpa [beq_iff_eq] using fun he => h he.symm] using ih

theorem setKey_absent (fs : List (String × Json)) (k : String) (v : Json)
    (h : List.lookup k fs = none) : setKey fs k v = fs ++ [(k, v)] := by
  induction fs with
  | nil => rfl
  | cons p rest ih =>
    obtain ⟨k0, v0⟩ := p
    by_cases hk : k0 = k
    · subst hk
      simp [List.lookup] at h
    · rw [setKey, if_neg hk]
      have hrest : List.lookup k rest = none := by
        simpa [List.lookup, show (k == k0) = false by
          simpa [beq_iff_eq] using fun he => hk he.symm] using h
      rw [ih hrest]
      simp

theorem leavesF_append (a b : List (String × Json)) :
    leavesF (a ++ b) = leavesF a ++ leavesF b := by
  induction a with
  | nil => simp [leavesF]
  | cons p rest ih =>
    obtain ⟨k0, v0⟩ := p
    rw [List.cons_append, leavesF, leavesF, ih, List.append_assoc]

/-- Pass-through holds whenever the request's values are literally the
callers' values in order. -/
theorem passThroughAt_of_eq (args : List Json) (r : Request)
    (h : reqLeaves r = leavesL args) : PassThroughAt args r := by
  rw [PassThroughAt, h]

/-! ## Claim theorems -/

/-- C1: every reference-collection fetch action issues exactly one Resource
Client call; on success the corresponding store field is replaced wholesale
with exactly the `items` array of the response (all other fields unchanged,
as the record update states); on failure the whole state is unchanged and the
error is not caught locally — the action's outcome is the error itself, which
therefore propagates to whatever awaits the fetch. -/
theorem fetch_actions_one_call_items_or_unchanged :
    (∀ s items, fetchUnits s (.ok ⟨⟨items⟩⟩) =
      ⟨{ s with units := items }, [.unitsGetBySubset "Study Time"], .ok ()⟩) ∧
    (∀ s e, fetchUnits s (.error e) = ⟨s, [.unitsGetBySubset "Study Time"], .error e⟩) ∧
    (∀ s items, fetchAllUnits s (.ok ⟨⟨items⟩⟩) =
      ⟨{ s with allUnits := items },
        [.unitsGet (.obj [("params", .obj [("page_size", .num 0)])])], .ok ()⟩) ∧
    (∀ s e, fetchAllUnits s (.error e) =
      ⟨s, [.unitsGet (.obj [("params", .obj [("page_size", .num 0)])])], .error e⟩) ∧
    (∀ s items, fetchStudyTypes s (.ok ⟨⟨items⟩⟩) =
      ⟨{ s with studyTypes := items }, [.termsGetNamesByCodelist "studyType"], .ok ()⟩) ∧
    (∀ s e, fetchStudyTypes s (.error e) =
      ⟨s, [.termsGetNamesByCodelist "studyType"], .error e⟩) ∧
    (∀ s items, fetchTrialIntentTypes s (.ok ⟨⟨items⟩⟩) =
      ⟨{ s with trialIntentTypes := items },
        [.termsGetNamesByCodelist "trialIntentType"], .ok ()⟩) ∧
    (∀ s e, fetchTrialIntentTypes s (.error e) =
      ⟨s, [.termsGetNamesByCodelist "trialIntentType"], .error e⟩) ∧
    (∀ s items, fetchTrialTypes s (.ok ⟨⟨items⟩⟩) =
      ⟨{ s with trialTypes := items }, [.termsGetNamesByCodelist "trialType"], .ok ()⟩) ∧
    (∀ s e, fetchTrialTypes s (.error e) =
      ⟨s, [.termsGetNamesByCodelist "trialType"], .error e⟩) ∧
    (∀ s items, fetchTrialPhases s (.ok ⟨⟨items⟩⟩) =
      ⟨{ s with trialPhases := items }, [.termsGetNamesByCodelist "trialPhase"], .ok ()⟩) ∧
    (∀ s e, fetchTrialPhases s (.error e) =
      ⟨s, [.termsGetNamesByCodelist "trialPhase"], .error e⟩) ∧
    (∀ s items, fetchInterventionTypes s (.ok ⟨⟨items⟩⟩) =
      ⟨{ s with interventionTypes := items },
        [.termsGetNamesByCodelist "interventionTypes"], .ok ()⟩) ∧
    (∀ s e, fetchInterventionTypes s (.error e) =
      ⟨s, [.termsGetNamesByCodelist "interventionTypes"], .error e⟩) ∧
    (∀ s items, fetchSexOfParticipants s (.ok ⟨⟨items⟩⟩) =
      ⟨{ s with sexOfParticipants := items },
        [.termsGetNamesByCodelist "sexOfParticipants"], .ok ()⟩) ∧
    (∀ s e, fetchSexOfParticipants s (.error e) =
      ⟨s, [.termsGetNamesByCodelist "sexOfParticipants"], .error e⟩) ∧
    (∀ s items, fetchTrialBlindingSchemas s (.ok ⟨⟨items⟩⟩) =
      ⟨{ s with trialBlindingSchemas := items },
        [.termsGetNamesByCodelist "trialBlindingSchema"], .ok ()⟩) ∧
    (∀ s e, fetchTrialBlindingSchemas s (.error e) =
      ⟨s, [.termsGetNamesByCodelist "trialBlindingSchema"], .error e⟩) ∧
    (∀ s items, fetchControlTypes s (.ok ⟨⟨items⟩⟩) =
      ⟨{ s with controlTypes := items }, [.termsGetNamesByCodelist "controlType"], .ok ()⟩) ∧
    (∀ s e, fetchControlTypes s (.error e) =
      ⟨s, [.termsGetNamesByCodelist "controlType"], .error e⟩) ∧
    (∀ s items, fetchInterventionModels s (.ok ⟨⟨items⟩⟩) =
      ⟨{ s with interventionModels := items },
        [.termsGetNamesByCodelist "interventionModel"], .ok ()⟩) ∧
    (∀ s e, fetchInterventionModels s (.error e) =
      ⟨s, [.termsGetNamesByCodelist "interventionModel"], .error e⟩) ∧
    (∀ s items, fetchNullValues s (.ok ⟨⟨items⟩⟩) =
      ⟨{ s with nullValues := items }, [.termsGetByCodelist "nullValues"], .ok ()⟩) ∧
    (∀ s e, fetchNullValues s (.error e) =
      ⟨s, [.termsGetByCodelist "nullValues"], .error e⟩) ∧
    (∀ s items, fetchObjectiveLevels s (.ok ⟨⟨items⟩⟩) =
      ⟨{ s with objectiveLevels := items },
        [.termsGetNamesByCodelist "objectiveLevels"], .ok ()⟩) ∧
    (∀ s e, fetchObjectiveLevels s (.error e) =
      ⟨s, [.termsGetNamesByCodelist "objectiveLevels"], .error e⟩) ∧
    (∀ s items, fetchEndpointLevels s (.ok ⟨⟨items⟩⟩) =
      ⟨{ s with endpointLevels := items },
        [.termsGetNamesByCodelist "endpointLevels"], .ok ()⟩) ∧
    (∀ s e, fetchEndpointLevels s (.error e) =
      ⟨s, [.termsGetNamesByCodelist "endpointLevels"], .error e⟩) ∧
    (∀ s items, fetchEndpointSubLevels s (.ok ⟨⟨items⟩⟩) =
      ⟨{ s with endpointSubLevels := items },
        [.termsGetNamesByCodelist "endpointSubLevels"], .ok ()⟩) ∧
    (∀ s e, fetchEndpointSubLevels s (.error e) =
      ⟨s, [.termsGetNamesByCodelist "endpointSubLevels"], .error e⟩) :=
  ⟨fun _ _ => rfl, fun _ _ => rfl, fun _ _ => rfl, fun _ _ => rfl, fun _ _ => rfl,
   fun _ _ => rfl, fun _ _ => rfl, fun _ _ => rfl, fun _ _ => rfl, fun _ _ => rfl,
   fun _ _ => rfl, fun _ _ => rfl, fun _ _ => rfl, fun _ _ => rfl, fun _ _ => rfl,
   fun _ _ => rfl, fun _ _ => rfl, fun _ _ => rfl, fun _ _ => rfl, fun _ _ => rfl,
   fun _ _ => rfl, fun _ _ => rfl, fun _ _ => rfl, fun _ _ => rfl, fun _ _ => rfl,
   fun _ _ => rfl, fun _ _ => rfl, fun _ _ => rfl, fun _ _ => rfl, fun _ _ => rfl⟩

/-- A store state whose objective levels arrive unsorted (orders 3, 1, 2). -/
def levelsState : StoreState :=
  { initialState with objectiveLevels := [⟨3, "a"⟩, ⟨1, "b"⟩, ⟨2, "c"⟩] }

/-- C3 counterexample: accessing `sortedObjectiveLevels` does mutate the
store — `Array.prototype.sort` sorts `state.objectiveLevels` in place, so
after the access on a state holding orders 3, 1, 2 the store differs from
what it was. -/
theorem sorted_getter_mutates :
    (sortedObjectiveLevels levelsState).2 ≠ levelsState := fun h =>
  absurd (congrArg StoreState.objectiveLevels h) (by decide)

/-- C3 amended: accessing `sortedObjectiveLevels` (resp.
`sortedEndpointLevels`) changes nothing except the `objectiveLevels`
(resp. `endpointLevels`) collection itself, which is replaced in place by its
stable ascending sort — a permutation of the previous elements; every other
field is untouched, and the returned list is that sorted collection. -/
theorem sorted_getters_frame (s : StoreState) :
    (sortedObjectiveLevels s).2 = { s with objectiveLevels := jsSortByOrder s.objectiveLevels } ∧
    (jsSortByOrder s.objectiveLevels).Perm s.objectiveLevels ∧
    (sortedObjectiveLevels s).1 = jsSortByOrder s.objectiveLevels ∧
    (sortedEndpointLevels s).2 = { s with endpointLevels := jsSortByOrder s.endpointLevels } ∧
    (jsSortByOrder s.endpointLevels).Perm s.endpointLevels ∧
    (sortedEndpointLevels s).1 = jsSortByOrder s.endpointLevels :=
  ⟨rfl, List.perm_insertionSort _ _, rfl, rfl, List.perm_insertionSort _ _, rfl⟩

/-- C4: `sortedObjectiveLevels` and `sortedEndpointLevels` return the
collection in non-decreasing `order`; in particular on orders 3, 1, 2 the
output is the elements with orders 1, 2, 3 in that sequence. -/
theorem sorted_getters_nondecreasing :
    (∀ s : StoreState,
      List.Sorted (fun a b : CTTerm => a.order ≤ b.order) (sortedObjectiveLevels s).1) ∧
    (∀ s : StoreState,
      List.Sorted (fun a b : CTTerm => a.order ≤ b.order) (sortedEndpointLevels s).1) ∧
    (sortedObjectiveLevels levelsState).1 = [⟨1, "b"⟩, ⟨2, "c"⟩, ⟨3, "a"⟩] :=
  ⟨fun _ => List.sorted_insertionSort _ _, fun _ => List.sorted_insertionSort _ _, by decide⟩

/-- C8: `addTermToCodelist(codelistUid, termUid)` issues one create (POST)
request whose body carries `term_uid` equal to the given term uid and the
fixed order sentinel `999999`. -/
theorem addTermToCodelist_sentinel (codelistUid termUid : String) :
    (ControlledTerminology.addTermToCodelist codelistUid termUid).method = .post ∧
    (ControlledTerminology.addTermToCodelist codelistUid termUid).body =
      some (.obj [("term_uid", .str termUid), ("order", .num 999999)]) :=
  ⟨rfl, rfl⟩

/-- C9: `studyId` requires a selected study: `unselectStudy` leaves
`selectedStudy` as `null`, and on every state in that documented
no-study-selected state evaluating `studyId` dereferences a field of `null`
and throws a `TypeError` instead of returning any fallback. -/
theorem studyId_requires_selection :
    (∀ (s : StoreState) (g : Storage), ((unselectStudy s g).1).selectedStudy = none) ∧
    (∀ s : StoreState, s.selectedStudy = none → studyId s = .error .typeError) :=
  ⟨fun _ _ => rfl, fun s h => by simp [studyId, h, jsField, Bind.bind, Except.bind]⟩

/-- C9 witness: the initial store state has no selected study and `studyId`
throws on it. -/
theorem studyId_requires_selection_witness :
    initialState.selectedStudy = none ∧ studyId initialState = .error .typeError :=
  ⟨rfl, studyId_requires_selection.2 initialState rfl⟩

/-- C10: `fetchSnomedTerms` takes `items[0]` of the SNOMED dictionary lookup
unconditionally: on an empty `items` the action throws (`items[0]` is
`undefined`) before issuing the second request and `snomedTerms` (indeed the
whole state) is unchanged; when one or more dictionaries match, the second
request is issued with the first item's `codelist_uid` (the remaining items
are ignored) and `snomedTerms` is replaced by the second response's items. -/
theorem fetchSnomedTerms_first_item :
    (∀ (s : StoreState) (r2 : Except JsError (ApiResponse Json)),
      fetchSnomedTerms s (.ok ⟨⟨[]⟩⟩) r2 =
        ⟨s, [.dictionariesGetCodelists "SNOMED"], .error .typeError⟩) ∧
    (∀ (s : StoreState) (flds : List (String × Json)) (restItems items2 : List Json),
      fetchSnomedTerms s (.ok ⟨⟨.obj flds :: restItems⟩⟩) (.ok ⟨⟨items2⟩⟩) =
        ⟨{ s with snomedTerms := items2 },
          [.dictionariesGetCodelists "SNOMED",
           .dictionariesGetTerms (List.lookup "codelist_uid" flds) 0
             (render (.obj [("name", .bool true)]))], .ok ()⟩) :=
  ⟨fun _ _ => rfl, fun _ _ _ _ => rfl⟩

/-- C5: on every state whose selected study carries the metadata chain,
`studyId` returns the identification metadata's `study_id` when its
`study_number` is defined and non-null, and its `study_acronym` otherwise. -/
theorem studyId_branches (s : StoreState) (fs cs is : List (String × Json))
    (h1 : s.selectedStudy = some (.obj fs))
    (h2 : List.lookup "current_metadata" fs = some (.obj cs))
    (h3 : List.lookup "identification_metadata" cs = some (.obj is)) :
    studyId s = .ok (if jsDefined (List.lookup "study_number" is)
      then List.lookup "study_id" is else List.lookup "study_acronym" is) := by
  simp only [studyId, h1, jsField, Bind.bind, Except.bind, h2, h3]
  cases hb : jsDefined (List.lookup "study_number" is) <;> simp [hb]

/-- Identification metadata with a present, non-null study number. -/
def identWithNumber : List (String × Json) :=
  [("study_number", .num 123), ("study_id", .str "CDISC-123"), ("study_acronym", .str "ACR")]

/-- Identification metadata whose study number is `null`. -/
def identNullNumber : List (String × Json) :=
  [("study_number", .null), ("study_id", .str "CDISC-123"), ("study_acronym", .str "ACR")]

/-- Current-metadata wrapper for a given identification metadata. -/
def cmFields (is : List (String × Json)) : List (String × Json) :=
  [("identification_metadata", .obj is)]

/-- Study-object fields for a given identification metadata. -/
def studyFields (is : List (String × Json)) : List (String × Json) :=
  [("current_metadata", .obj (cmFields is))]

/-- C5 witness: both branches at concrete fixture studies — with a study
number present `studyId` yields the study id, with a `null` study number it
yields the acronym. -/
theorem studyId_branches_witness :
    studyId { initialState with selectedStudy := some (.obj (studyFields identWithNumber)) } =
      .ok (some (.str "CDISC-123")) ∧
    studyId { initialState with selectedStudy := some (.obj (studyFields identNullNumber)) } =
      .ok (some (.str "ACR")) := by
  constructor
  · rw [studyId_branches _ (studyFields identWithNumber) (cmFields identWithNumber)
      identWithNumber rfl rfl rfl]
    simp [identWithNumber, List.lookup, jsDefined]
  · rw [studyId_branches _ (studyFields identNullNumber) (cmFields identNullNumber)
      identNullNumber rfl rfl rfl]
    simp [identNullNumber, List.lookup, jsDefined]

/-- C6: when `initialize()` finds a persisted study in local storage
(non-empty value that parses to a study the optimistic re-selection accepts)
and the revalidation fetch fails with any error, the completed action has
cleared both the in-memory selection and the persisted `selectedStudy` key. -/
theorem initialize_revalidation_rollback (s : StoreState) (g : Storage) (stored : String)
    (parsed : Json) (e : JsError) (sel : SelectOutcome)
    (hget : getItem g "selectedStudy" = some stored) (hne : stored ≠ "")
    (hparse : parseJson stored = some parsed)
    (hsel : selectStudy s g parsed false = .ok sel) :
    ∃ out : InitOutcome, initializeStore s g (.error e) = .ok out ∧
      out.state.selectedStudy = none ∧ getItem out.storage "selectedStudy" = none := by
  obtain ⟨u, hu⟩ : ∃ u, jsField (some parsed) "uid" = .ok u := by
    cases parsed with
    | null =>
      exfalso
      simp [selectStudy, jsField, Bind.bind, Except.bind] at hsel
    | obj fs => exact ⟨List.lookup "uid" fs, rfl⟩
    | bool b => exact ⟨none, rfl⟩
    | num n => exact ⟨none, rfl⟩
    | str t => exact ⟨none, rfl⟩
    | arr xs => exact ⟨none, rfl⟩
  refine ⟨⟨(unselectStudy sel.state sel.storage).1, (unselectStudy sel.state sel.storage).2,
    sel.calls ++ [.studyGetStudy u true]⟩, ?_, ?_, ?_⟩
  · simp only [initializeStore, hget, if_neg hne, hparse, hsel, hu]
  · rfl
  · exact getItem_removeItem_self sel.storage "selectedStudy"

/-- A study object of the shape the store persists and revalidates. -/
def sampleStudy : Json :=
  .obj [("uid", .str "Study_000001"),
    ("current_metadata", .obj
      [("version_metadata", .obj [("version_number", .num 2)]),
       ("identification_metadata", .obj
         [("study_number", .num 1), ("study_id", .str "CT-1"), ("study_acronym", .null)])])]

/-- A local storage holding the persisted serialized sample study. -/
def sampleStorage : Storage := [("selectedStudy", render sampleStudy)]

/-- The outcome `selectStudy` produces for the sample study over the sample
storage. -/
def sampleSelected : SelectOutcome where
  state := { initialState with
    selectedStudy := some sampleStudy, selectedStudyVersion := some (.num 2) }
  storage := setItem sampleStorage "selectedStudy" (render sampleStudy)
  reloaded := false
  calls := [.studyGetStudyPreferredTimeUnit (some (.str "Study_000001")),
    .studyGetSoAPreferredTimeUnit (some (.str "Study_000001")),
    .studyGetSoAPreferences (some (.str "Study_000001"))]

/-- C6 witness: a concrete persisted study whose revalidation fails with a
404 ends with both memory and storage cleared. -/
theorem initialize_revalidation_rollback_witness :
    ∃ out : InitOutcome,
      initializeStore initialState sampleStorage (.error (.httpError 404)) = .ok out ∧
      out.state.selectedStudy = none ∧ getItem out.storage "selectedStudy" = none :=
  initialize_revalidation_rollback initialState sampleStorage (render sampleStudy)
    sampleStudy (.httpError 404) sampleSelected rfl (by decide) (parse_render sampleStudy) rfl

/-- C7: after a completed `selectStudy(S)` the value persisted under the
`selectedStudy` key is `JSON.stringify(S)`, and deserializing it with
`JSON.parse` yields exactly the object `S` back (persist-then-restore round
trip). -/
theorem selectStudy_persists_roundtrip (s : StoreState) (g : Storage) (S : Json)
    (fr : Bool) (sel : SelectOutcome) (h : selectStudy s g S fr = .ok sel) :
    getItem sel.storage "selectedStudy" = some (render S) ∧
    parseJson (render S) = some S := by
  refine ⟨?_, parse_render S⟩
  have hst : sel.storage = setItem g "selectedStudy" (render S) := by
    cases h1 : jsField (some S) "current_metadata" with
    | error e1 => rw [selectStudy] at h; simp [h1, Bind.bind, Except.bind] at h
    | ok cm =>
      cases h2 : jsField cm "version_metadata" with
      | error e2 => rw [selectStudy] at h; simp [h1, h2, Bind.bind, Except.bind] at h
      | ok vm =>
        cases h3 : jsField vm "version_number" with
        | error e3 => rw [selectStudy] at h; simp [h1, h2, h3, Bind.bind, Except.bind] at h
        | ok vn =>
          cases h4 : jsField (some S) "uid" with
          | error e4 =>
            rw [selectStudy] at h; simp [h1, h2, h3, h4, Bind.bind, Except.bind] at h
          | ok uid =>
            rw [selectStudy] at h
            simp only [h1, h2, h3, h4, Bind.bind, Except.bind, pure,
              Except.pure, Except.ok.injEq] at h
            rw [← h]
  rw [hst, getItem_setItem_self]

/-- C7 witness: the concrete sample study round-trips through the persisted
serialized form. -/
theorem selectStudy_persists_roundtrip_witness :
    getItem sampleSelected.storage "selectedStudy" = some (render sampleStudy) ∧
    parseJson (render sampleStudy) = some sampleStudy :=
  selectStudy_persists_roundtrip initialState sampleStorage sampleStudy false
    sampleSelected rfl

theorem passThrough_noArgs (m : Method) (u : String) :
    PassThroughAt [] { method := m, url := u } :=
  passThroughAt_of_eq _ _ (by simp [reqLeaves, leavesL])

theorem passThrough_paramsObj (m : Method) (u : String) (p : Json) :
    PassThroughAt [p] { method := m, url := u, params := some p } :=
  passThroughAt_of_eq _ _ (by simp [reqLeaves, leavesL])

theorem passThrough_bodyObj (m : Method) (u : String) (d : Json) :
    PassThroughAt [d] { method := m, url := u, body := some d } :=
  passThroughAt_of_eq _ _ (by simp [reqLeaves, leavesL])

theorem passThrough_params1 (m : Method) (u k : String) (c : Json) :
    PassThroughAt [c] { method := m, url := u, params := some (.obj [(k, c)]) } :=
  passThroughAt_of_eq _ _ (by simp [reqLeaves, leavesL, leaves, leavesF])

theorem passThrough_params3 (m : Method) (u k1 k2 k3 : String) (a b c : Json) :
    PassThroughAt [a, b, c]
      { method := m, url := u, params := some (.obj [(k1, a), (k2, b), (k3, c)]) } :=
  passThroughAt_of_eq _ _ (by simp [reqLeaves, leavesL, leaves, leavesF])

/-- C2 counterexample: `getCodelists` is not pure pass-through — called with
`{ page_size: -1 }` it hands the HTTP client `{ page_size: 1000 }`, a value
the caller never supplied, so `getSponsorPackages` is not the only operation
that adds interpretation. -/
theorem getCodelists_rewrites_params :
    ¬ PassThroughAt [Json.obj [("page_size", Json.num (-1))]]
      (ControlledTerminology.getCodelists [("page_size", Json.num (-1))]) := by
  intro h
  have hreq : reqLeaves (ControlledTerminology.getCodelists [("page_size", Json.num (-1))]) =
      [Json.num 1000] := by
    simp [ControlledTerminology.getCodelists, reqLeaves, leaves, leavesF, setKey, List.lookup]
  have harg : leavesL [Json.obj [("page_size", Json.num (-1))]] = [Json.num (-1)] := by
    simp [leavesL, leaves, leavesF]
  rw [PassThroughAt, hreq, harg] at h
  have hm : Json.num 1000 ∈ [Json.num (-1)] := h.mem_iff.mp (by simp)
  rw [List.mem_singleton] at hm
  have h1000 : (1000 : Int) = -1 := by injection hm
  exact absurd h1000 (by decide)

open ControlledTerminology in
/-- C2 amended: every Resource Client operation except `getSponsorPackages`,
`getCodelists` and `addTermToCodelist` is pure pass-through — the values it
hands to the HTTP client are exactly the caller-supplied values, merely
arranged under fixed parameter names (for `getCodelistTermsAttributes` this
includes merging the caller's codelist uid into the caller's options, stated
here for options not already carrying a `codelist_uid` key), and the HTTP
response is returned unmodified (each operation body is a single `return` of
the transport call).  The three exceptions add interpretation:
`getSponsorPackages` composes the two fixed filter values (catalogue
`'SDTM CT'` and the sponsor-only flag), `getCodelists` rewrites a `page_size`
of `-1` to `1000` (pass-through otherwise), and `addTermToCodelist` invents
the order sentinel `999999`. -/
theorem client_passthrough_amended :
    (∀ opts, List.lookup "page_size" opts ≠ some (.num (-1)) →
      PassThroughAt [.obj opts] (getCodelists opts)) ∧
    (∀ u opts, List.lookup "codelist_uid" opts = none →
      PassThroughAt [.str u, .obj opts] (getCodelistTermsAttributes u opts)) ∧
    PassThroughAt [] getCatalogues ∧
    (∀ p, PassThroughAt [p] (getPackages p)) ∧
    (∀ c, PassThroughAt [c] (getPackagesDates c)) ∧
    (∀ c f t, PassThroughAt [c, f, t] (getPackagesChanges c f t)) ∧
    (∀ u c f t, PassThroughAt [c, f, t] (getPackagesCodelistChanges u c f t)) ∧
    (∀ d, PassThroughAt [d] (createSponsorPackage d)) ∧
    (∀ u, PassThroughAt [] (getCodelistNames u)) ∧
    (∀ u, PassThroughAt [] (getCodelistNamesVersions u)) ∧
    (∀ u d, PassThroughAt [d] (updateCodelistNames u d)) ∧
    (∀ u, PassThroughAt [] (newCodelistNamesVersion u)) ∧
    (∀ u, PassThroughAt [] (approveCodelistNames u)) ∧
    (∀ u, PassThroughAt [] (getCodelistAttributes u)) ∧
    (∀ u, PassThroughAt [] (getCodelistAttributesVersions u)) ∧
    (∀ u, PassThroughAt [] (newCodelistAttributesVersion u)) ∧
    (∀ u, PassThroughAt [] (approveCodelistAttributes u)) ∧
    (∀ p, PassThroughAt [p] (getCodelistTerms p)) ∧
    (∀ p, PassThroughAt [p] (getCodelistTermsNames p)) ∧
    (∀ u, PassThroughAt [] (getCodelistTermNames u)) ∧
    (∀ u, PassThroughAt [] (getCodelistTermNamesVersions u)) ∧
    (∀ u, PassThroughAt [] (newCodelistTermNamesVersion u)) ∧
    (∀ u, PassThroughAt [] (approveCodelistTermNames u)) ∧
    (∀ u, PassThroughAt [] (inactivateCodelistTermNames u)) ∧
    (∀ u, PassThroughAt [] (reactivateCodelistTermNames u)) ∧
    (∀ u, PassThroughAt [] (deleteCodelistTermNames u)) ∧
    (∀ u, PassThroughAt [] (getCodelistTermAttributes u)) ∧
    (∀ u, PassThroughAt [] (getCodelistTermAttributesVersions u)) ∧
    (∀ u, PassThroughAt [] (newCodelistTermAttributesVersion u)) ∧
    (∀ u, PassThroughAt [] (approveCodelistTermAttributes u)) ∧
    (∀ u, PassThroughAt [] (inactivateCodelistTermAttributes u)) ∧
    (∀ u, PassThroughAt [] (reactivateCodelistTermAttributes u)) ∧
    (∀ u, PassThroughAt [] (deleteCodelistTermAttributes u)) ∧
    (∀ d, PassThroughAt [d] (createCodelistTerm d)) ∧
    (∀ u t, PassThroughAt [] (removeTermFromCodelist u t)) ∧
    (∀ t d, PassThroughAt [d] (updateCodelistTermOrder t d)) ∧
    (∀ t d, PassThroughAt [d] (updateCodelistTermNames t d)) ∧
    (∀ t d, PassThroughAt [d] (updateCodelistTermAttributes t d)) ∧
    (∀ u d, PassThroughAt [d] (updateCodelistAttributes u d)) ∧
    (∀ d, PassThroughAt [d] (createCodelist d)) ∧
    PassThroughAt [] getStats ∧
    (getSponsorPackages.params =
        some (.obj [("catalogue", .str "SDTM CT"), ("sponsor_only", .bool true)]) ∧
      ¬ PassThroughAt [] getSponsorPackages) ∧
    (∀ c t, (addTermToCodelist c t).body =
        some (.obj [("term_uid", .str t), ("order", .num 999999)]) ∧
      ¬ PassThroughAt [.str t] (addTermToCodelist c t)) := by
  refine ⟨?codelists, ?attrsMerge, passThrough_noArgs _ _, fun p => passThrough_paramsObj _ _ _,
    fun c => passThrough_params1 _ _ _ _,
    fun c f t => passThrough_params3 _ _ _ _ _ _ _ _,
    fun u c f t => passThrough_params3 _ _ _ _ _ _ _ _,
    fun d => passThrough_bodyObj _ _ _,
    fun u => passThrough_noArgs _ _, fun u => passThrough_noArgs _ _,
    fun u d => passThrough_bodyObj _ _ _,
    fun u => passThrough_noArgs _ _, fun u => passThrough_noArgs _ _,
    fun u => passThrough_noArgs _ _, fun u => passThrough_noArgs _ _,
    fun u => passThrough_noArgs _ _, fun u => passThrough_noArgs _ _,
    fun p => passThrough_paramsObj _ _ _, fun p => passThrough_paramsObj _ _ _,
    fun u => passThrough_noArgs _ _, fun u => passThrough_noArgs _ _,
    fun u => passThrough_noArgs _ _, fun u => passThrough_noArgs _ _,
    fun u => passThrough_noArgs _ _, fun u => passThrough_noArgs _ _,
    fun u => passThrough_noArgs _ _,
    fun u => passThrough_noArgs _ _, fun u => passThrough_noArgs _ _,
    fun u => passThrough_noArgs _ _, fun u => passThrough_noArgs _ _,
    fun u => passThrough_noArgs _ _, fun u => passThrough_noArgs _ _,
    fun u => passThrough_noArgs _ _,
    fun d => passThrough_bodyObj _ _ _,
    fun u t => passThrough_noArgs _ _,
    fun t d => passThrough_bodyObj _ _ _, fun t d => passThrough_bodyObj _ _ _,
    fun t d => passThrough_bodyObj _ _ _, fun u d => passThrough_bodyObj _ _ _,
    fun d => passThrough_bodyObj _ _ _,
    passThrough_noArgs _ _,
    ⟨rfl, ?sponsor⟩, ?addTerm⟩
  case attrsMerge =>
    intro u opts hl
    rw [PassThroughAt]
    have h1 : reqLeaves (getCodelistTermsAttributes u opts) =
        leavesF opts ++ [Json.str u] := by
      simp [getCodelistTermsAttributes, reqLeaves, leaves, setKey_absent opts _ _ hl,
        leavesF_append, leavesF]
    have h2 : leavesL [Json.str u, Json.obj opts] = [Json.str u] ++ leavesF opts := by
      simp [leavesL, leaves]
    rw [h1, h2]
    exact List.perm_append_comm
  case sponsor =>
    intro h
    have hreq : reqLeaves getSponsorPackages = [Json.str "SDTM CT", Json.bool true] := by
      simp [getSponsorPackages, reqLeaves, leaves, leavesF]
    have hlen := h.length_eq
    rw [hreq] at hlen
    simp [leavesL] at hlen
  case codelists =>
    intro opts hne
    have hopts : (match List.lookup "page_size" opts with
        | some (.num n) => if n = -1 then setKey opts "page_size" (.num 1000) else opts
        | _ => opts) = opts := by
      cases hl : List.lookup "page_size" opts with
      | none => rfl
      | some v =>
        cases v with
        | num n =>
          by_cases hn : n = -1
          · subst hn
            exact absurd hl hne
          · simp [hn]
        | null => rfl
        | bool b => rfl
        | str t => rfl
        | arr xs => rfl
        | obj fs => rfl
    apply passThroughAt_of_eq
    simp [getCodelists, reqLeaves, hopts, leaves, leavesL]
  case addTerm =>
    refine fun c t => ⟨rfl, ?_⟩
    intro h
    have hreq : reqLeaves (addTermToCodelist c t) = [Json.str t, Json.num 999999] := by
      simp [addTermToCodelist, reqLeaves, leaves, leavesF]
    have hlen := h.length_eq
    rw [hreq] at hlen
    simp [leavesL, leaves] at hlen

/-- C2 witness: the conditional pass-through parts of the amended claim hold
at concrete inputs — `getCodelists` with a `page_size` other than `-1`, and
`getCodelistTermsAttributes` with options lacking a `codelist_uid` key. -/
theorem client_passthrough_amended_witness :
    PassThroughAt [Json.obj [("page_size", Json.num 3)]]
      (ControlledTerminology.getCodelists [("page_size", Json.num 3)]) ∧
    PassThroughAt [Json.str "CL1", Json.obj [("page_size", Json.num 0)]]
      (ControlledTerminology.getCodelistTermsAttributes "CL1" [("page_size", Json.num 0)]) := by
  refine ⟨client_passthrough_amended.1 _ ?_, client_passthrough_amended.2.1 "CL1" _ ?_⟩
  · intro h
    rw [show List.lookup "page_size" [("page_size", Json.num 3)] = some (Json.num 3)
      from rfl] at h
    have h3 : (3 : Int) = -1 := by
      injection Option.some.inj h
    exact absurd h3 (by decide)
  · rfl
